import Mathlib

/-!
Shallow embedding of the quest-progression engine of the Rpg-TDA-Colas
repository (src/main.py over the SQLAlchemy tables of src/database.py,
plus the standalone FIFO queue of src/tda_cola.py).

Modelling conventions:
- The SQLite database is a `DB` record of four tables, each a list of rows
  in insertion order (SQLite rowid order, which is the order queries return
  rows in when no ORDER BY is given).
- Autoincrement primary keys are modelled as `max existing id + 1`.
- Each FastAPI handler becomes a function `DB → args → Except HErr (resp × DB)`;
  on any exception the handler does `db.rollback()` and re-raises, so the
  error case returns no database (state unchanged).
- Python truthiness tests (`if not personaje.mision_activa_id`) are modelled
  by `falsyOpt`, which is true for `None` and for `0`.
- FastAPI's `HTTPException` stringifies as `"{status_code}: {detail}"`; the
  blanket `except Exception as e` clauses in the handlers catch the
  handler's own `HTTPException`s and re-raise them wrapped, which is
  modelled faithfully by the `Raw`/wrapper function pairs below.
- The composite primary keys of `personaje_misiones_pendientes` and
  `personaje_misiones_completadas` (personaje_id, mision_id) make a
  duplicate INSERT raise `IntegrityError`; the exact driver message text is
  environment dependent, so a representative constant string is used.
-/

/-- A row of the `misiones` table (src/database.py, class Mision):
id (integer primary key), titulo, xp. -/
structure Mision where
  id : Nat
  titulo : String
  xp : Int
  deriving Repr, DecidableEq

/-- A row of the `personajes` table (src/database.py, class Personaje):
id, nombre, xp, mision_activa_id (nullable FK). -/
structure Personaje where
  id : Nat
  nombre : String
  xp : Int
  mision_activa_id : Option Nat
  deriving Repr, DecidableEq

/-- A row of the association table `personaje_misiones_pendientes`
(src/database.py): composite primary key (personaje_id, mision_id) plus the
`orden` column that keeps the FIFO order. -/
structure PendRow where
  personaje_id : Nat
  mision_id : Nat
  orden : Nat
  deriving Repr, DecidableEq

/-- A row of the association table `personaje_misiones_completadas`
(src/database.py): composite primary key (personaje_id, mision_id). -/
structure CompRow where
  personaje_id : Nat
  mision_id : Nat
  deriving Repr, DecidableEq

/-- The whole SQLite database `rpg.db`, each table in row-insertion order. -/
structure DB where
  personajes : List Personaje
  misiones : List Mision
  pendientes : List PendRow
  completadas : List CompRow
  deriving Repr, DecidableEq

/-- The freshly created database (Base.metadata.create_all on startup). -/
def emptyDB : DB := ⟨[], [], [], []⟩

/-- `db.query(Personaje).get(pid)`: primary-key lookup. -/
def getPersonaje (db : DB) (pid : Nat) : Option Personaje :=
  db.personajes.find? (fun p => p.id == pid)

/-- `db.query(Mision).get(mid)`: primary-key lookup. -/
def getMision (db : DB) (mid : Nat) : Option Mision :=
  db.misiones.find? (fun m => m.id == mid)

/-- Python truthiness of a nullable integer column: `not x` is true for
`None` and for `0`. -/
def falsyOpt : Option Nat → Bool
  | none => true
  | some n => n == 0

/-- An exception flying inside a handler's `try` block: either an
`HTTPException(code, detail)` raised by the handler itself, or an
`IntegrityError` coming from a primary-key violation on INSERT. -/
inductive Exc where
  | http (code : Nat) (detail : String)
  | integrity (msg : String)
  deriving Repr, DecidableEq

/-- `str(e)` for an in-flight exception: starlette's `HTTPException`
stringifies as `"{status_code}: {detail}"`; for `IntegrityError` it is the
driver message. -/
def Exc.toMsg : Exc → String
  | .http c d => toString c ++ ": " ++ d
  | .integrity m => m

/-- The HTTP error a handler finally responds with: status code and detail. -/
structure HErr where
  code : Nat
  detail : String
  deriving Repr, DecidableEq

/-- Representative driver message for a duplicate INSERT into
`personaje_misiones_pendientes`. -/
def pendIntegrityMsg : String :=
  "(sqlite3.IntegrityError) UNIQUE constraint failed: personaje_misiones_pendientes.personaje_id, personaje_misiones_pendientes.mision_id"

/-- Representative driver message for a duplicate INSERT into
`personaje_misiones_completadas`. -/
def compIntegrityMsg : String :=
  "(sqlite3.IntegrityError) UNIQUE constraint failed: personaje_misiones_completadas.personaje_id, personaje_misiones_completadas.mision_id"

/-- Next autoincrement id for a list of already-used ids. -/
def nextId (ids : List Nat) : Nat := ids.foldr max 0 + 1

/-- Body of the `try` block of `crear_personaje` (src/main.py lines 125-143):
validates the name, rejects duplicate names, inserts the new character with
xp 0 and returns `{id, nombre, xp}`. -/
def crear_personaje_try (db : DB) (nombre : String) :
    Except Exc ((Nat × String × Int) × DB) :=
  if nombre == "" then
    .error (.http 400 "El nombre es requerido")
  else if db.personajes.any (fun p => p.nombre == nombre) then
    .error (.http 400 "Ya existe un personaje con este nombre")
  else
    let newId := nextId (db.personajes.map Personaje.id)
    .ok ((newId, nombre, 0),
      { db with personajes := db.personajes ++ [⟨newId, nombre, 0, none⟩] })

/-- `POST /personajes` (src/main.py `crear_personaje`): the blanket
`except Exception` rolls back and re-raises every exception wrapped in a
400 `"Error creando personaje: ..."`. -/
def crear_personaje (db : DB) (nombre : String) :
    Except HErr ((Nat × String × Int) × DB) :=
  match crear_personaje_try db nombre with
  | .ok r => .ok r
  | .error e => .error ⟨400, "Error creando personaje: " ++ e.toMsg⟩

/-- Body of the `try` block of `crear_mision` (src/main.py lines 187-205):
rejects a duplicate title, inserts the quest and returns
`{id, titulo, xp, mensaje}`. -/
def crear_mision_try (db : DB) (titulo : String) (xp : Int) :
    Except Exc ((Nat × String × Int × String) × DB) :=
  if db.misiones.any (fun m => m.titulo == titulo) then
    .error (.http 400 "Ya existe una misión con este título")
  else
    let newId := nextId (db.misiones.map Mision.id)
    .ok ((newId, titulo, xp, "Misión creada exitosamente"),
      { db with misiones := db.misiones ++ [⟨newId, titulo, xp⟩] })

/-- `POST /misiones` (src/main.py `crear_mision`): FastAPI first validates
the query parameters (`titulo: min_length=3`, `xp: gt=0`) and answers 422
before the handler runs; inside the handler every exception is rolled back
and re-raised wrapped in a 400 `"Error creando misión: ..."`. -/
def crear_mision (db : DB) (titulo : String) (xp : Int) :
    Except HErr ((Nat × String × Int × String) × DB) :=
  if titulo.length < 3 then
    .error ⟨422, "ensure this value has at least 3 characters"⟩
  else if xp ≤ 0 then
    .error ⟨422, "ensure this value is greater than 0"⟩
  else
    match crear_mision_try db titulo xp with
    | .ok r => .ok r
    | .error e => .error ⟨400, "Error creando misión: " ++ e.toMsg⟩

/-- Rows of `personaje_misiones_pendientes` belonging to one character. -/
def pendRowsOf (db : DB) (pid : Nat) : List PendRow :=
  db.pendientes.filter (fun r => r.personaje_id == pid)

/-- `SELECT MAX(orden) FROM personaje_misiones_pendientes WHERE
personaje_id = :pid`, with the handler's `... .scalar() or 0` applied:
the maximum over the character's current rows, 0 when there are none. -/
def maxOrden (db : DB) (pid : Nat) : Nat :=
  ((pendRowsOf db pid).map PendRow.orden).foldr max 0

/-- Membership test for the composite primary key of
`personaje_misiones_pendientes`. -/
def pendHas (db : DB) (pid mid : Nat) : Bool :=
  db.pendientes.any (fun r => r.personaje_id == pid && r.mision_id == mid)

/-- Membership test for the composite primary key of
`personaje_misiones_completadas`. -/
def compHas (db : DB) (pid mid : Nat) : Bool :=
  db.completadas.any (fun r => r.personaje_id == pid && r.mision_id == mid)

/-- Body of the `try` block of `asignar_mision` (src/main.py lines 424-457):
looks up character and quest (404s), then either sets the quest active
(when `not personaje.mision_activa_id`) or appends it to the pending queue
with orden `MAX(orden)+1`; a duplicate (personaje_id, mision_id) INSERT
raises `IntegrityError`.  Returns
`{mensaje, mision_activa: activa_id == mision_id, en_cola: activa_id != mision_id}`
evaluated on the post-assignment state. -/
def asignar_mision_try (db : DB) (pid mid : Nat) :
    Except Exc ((String × Bool × Bool) × DB) :=
  match getPersonaje db pid with
  | none => .error (.http 404 "Personaje no encontrado")
  | some p =>
    match getMision db mid with
    | none => .error (.http 404 "Misión no encontrada")
    | some _ =>
      if falsyOpt p.mision_activa_id then
        let p' := { p with mision_activa_id := some mid }
        let db' := { db with
          personajes := db.personajes.map (fun q => if q.id == pid then p' else q) }
        .ok (("Misión asignada correctamente", true, false), db')
      else
        if pendHas db pid mid then
          .error (.integrity pendIntegrityMsg)
        else
          let row : PendRow := ⟨pid, mid, maxOrden db pid + 1⟩
          let db' := { db with pendientes := db.pendientes ++ [row] }
          .ok (("Misión asignada correctamente",
                p.mision_activa_id == some mid,
                !(p.mision_activa_id == some mid)), db')

/-- `POST /personajes/{pid}/misiones/{mid}` (src/main.py `asignar_mision`):
the blanket `except Exception` rolls back and re-raises every exception —
the handler's own 404s included — wrapped in a 400
`"Error asignando misión: ..."`. -/
def asignar_mision (db : DB) (pid mid : Nat) :
    Except HErr ((String × Bool × Bool) × DB) :=
  match asignar_mision_try db pid mid with
  | .ok r => .ok r
  | .error e => .error ⟨400, "Error asignando misión: " ++ e.toMsg⟩

/-- `SELECT mision_id FROM personaje_misiones_pendientes WHERE
personaje_id = :pid ORDER BY orden ASC LIMIT 1`: a row of minimal `orden`
among the character's pending rows (the earliest-inserted one when equal,
which never happens on reachable states). -/
def minByOrden : List PendRow → Option PendRow
  | [] => none
  | r :: rs =>
    match minByOrden rs with
    | none => some r
    | some b => if r.orden ≤ b.orden then some r else some b

/-- Body of the `try` block of `completar_mision` (src/main.py lines
500-547): requires a truthy `mision_activa_id` (400) resolving in the
catalog (404); reads the head of the FIFO queue, credits the quest's xp,
INSERTs the finished quest into `personaje_misiones_completadas` (a
duplicate raises `IntegrityError` and rolls everything back), then either
promotes the queue head (deleting its row) or clears the active quest, and
returns `{mensaje, xp_ganada, xp_total}`. -/
def completar_mision_try (db : DB) (pid : Nat) :
    Except Exc ((String × Int × Int) × DB) :=
  match getPersonaje db pid with
  | none => .error (.http 404 "Personaje no encontrado")
  | some p =>
    if falsyOpt p.mision_activa_id then
      .error (.http 400 "El personaje no tiene misión activa")
    else
      let aid := p.mision_activa_id.getD 0
      match getMision db aid with
      | none => .error (.http 404 "Misión activa no encontrada")
      | some m =>
        let siguiente := minByOrden (pendRowsOf db pid)
        let xpGanada := m.xp
        if compHas db pid aid then
          .error (.integrity compIntegrityMsg)
        else
          let newActive : Option Nat := siguiente.map PendRow.mision_id
          let p' := { p with xp := p.xp + xpGanada, mision_activa_id := newActive }
          let db' : DB := { db with
            personajes := db.personajes.map (fun q => if q.id == pid then p' else q),
            completadas := db.completadas ++ [⟨pid, aid⟩],
            pendientes :=
              match siguiente with
              | some row =>
                db.pendientes.filter
                  (fun r => !(r.personaje_id == pid && r.mision_id == row.mision_id))
              | none => db.pendientes }
          .ok (("Misión completada exitosamente", xpGanada, p.xp + xpGanada), db')

/-- `POST /personajes/{pid}/completar` (src/main.py `completar_mision`):
the blanket `except Exception` rolls back and re-raises every exception —
the handler's own 400 and 404s included — wrapped in a 500
`"Error completando misión: ..."`. -/
def completar_mision (db : DB) (pid : Nat) :
    Except HErr ((String × Int × Int) × DB) :=
  match completar_mision_try db pid with
  | .ok r => .ok r
  | .error e => .error ⟨500, "Error completando misión: " ++ e.toMsg⟩

/-- Body of the `try` block of `listar_misiones_disponibles` (src/main.py
lines 349-385): after the character lookup, returns the catalog quests
whose id is in neither association table for this character and — only
when `mision_activa_id` is truthy — differs from the active quest id.
Pure read. -/
def listar_misiones_disponibles_try (db : DB) (pid : Nat) :
    Except Exc (List (Nat × String × Int)) :=
  match getPersonaje db pid with
  | none => .error (.http 404 "Personaje no encontrado")
  | some p =>
    let pendIds := (pendRowsOf db pid).map PendRow.mision_id
    let compIds :=
      (db.completadas.filter (fun r => r.personaje_id == pid)).map CompRow.mision_id
    let ms := db.misiones.filter (fun m =>
      !(pendIds.contains m.id) && !(compIds.contains m.id) &&
        (if falsyOpt p.mision_activa_id then true
         else !(m.id == p.mision_activa_id.getD 0)))
    .ok (ms.map (fun m => (m.id, m.titulo, m.xp)))

/-- `GET /personajes/{pid}/misiones/disponibles` (src/main.py
`listar_misiones_disponibles`): this handler's `except Exception` has no
preceding `except HTTPException: raise`, so even its own 404 is caught and
re-raised wrapped in a 500 `"Error obteniendo misiones disponibles: ..."`. -/
def listar_misiones_disponibles (db : DB) (pid : Nat) :
    Except HErr (List (Nat × String × Int)) :=
  match listar_misiones_disponibles_try db pid with
  | .ok r => .ok r
  | .error e => .error ⟨500, "Error obteniendo misiones disponibles: " ++ e.toMsg⟩

/-- Stable insertion into a list sorted by `orden` (used to model the
`order_by="personaje_misiones_pendientes.c.orden"` of the
`misiones_pendientes` relationship). -/
def insertByOrden (r : PendRow) : List PendRow → List PendRow
  | [] => [r]
  | b :: bs => if r.orden < b.orden then r :: b :: bs else b :: insertByOrden r bs

/-- Stable sort by `orden`. -/
def sortByOrden : List PendRow → List PendRow
  | [] => []
  | r :: rs => insertByOrden r (sortByOrden rs)

/-- Response of `listar_misiones_personaje`: active quest, pending queue in
FIFO order, completed quests, available quests, each resolved to
`{id, titulo, xp}`. -/
structure StatusResp where
  personaje_id : Nat
  mision_activa : Option (Nat × String × Int)
  misiones_pendientes : List (Nat × String × Int)
  misiones_completadas : List (Nat × String × Int)
  misiones_disponibles : List (Nat × String × Int)
  deriving Repr, DecidableEq

/-- `GET /personajes/{pid}/misiones` (src/main.py `listar_misiones_personaje`,
lines 263-340): this handler re-raises `HTTPException` unwrapped.  A truthy
`mision_activa_id` missing from the catalog is a 500; the pending relation
is ordered by `orden`; the available filter uses
`Mision.id != (personaje.mision_activa_id or 0)`.  Pure read. -/
def listar_misiones_personaje (db : DB) (pid : Nat) :
    Except HErr StatusResp :=
  match getPersonaje db pid with
  | none => .error ⟨404, "Personaje no encontrado"⟩
  | some p =>
    let mactiva : Except HErr (Option (Nat × String × Int)) :=
      if falsyOpt p.mision_activa_id then .ok none
      else
        match getMision db (p.mision_activa_id.getD 0) with
        | none => .error ⟨500, "Misión activa no encontrada"⟩
        | some m => .ok (some (m.id, m.titulo, m.xp))
    match mactiva with
    | .error e => .error e
    | .ok ma =>
      let pendRows := sortByOrden (pendRowsOf db pid)
      let pend := pendRows.filterMap (fun r =>
        (getMision db r.mision_id).map (fun m => (m.id, m.titulo, m.xp)))
      let compIds :=
        (db.completadas.filter (fun r => r.personaje_id == pid)).map CompRow.mision_id
      let comp := compIds.filterMap (fun i =>
        (getMision db i).map (fun m => (m.id, m.titulo, m.xp)))
      let pendIds := (pendRowsOf db pid).map PendRow.mision_id
      let act0 := p.mision_activa_id.getD 0
      let disp := db.misiones.filter (fun m =>
        !(pendIds.contains m.id) && !(compIds.contains m.id) && !(m.id == act0))
      .ok ⟨pid, ma, pend, comp, disp.map (fun m => (m.id, m.titulo, m.xp))⟩

/-- One engine invocation, as seen from the HTTP layer. -/
inductive Op where
  | crearPersonaje (nombre : String)
  | crearMision (titulo : String) (xp : Int)
  | asignar (pid mid : Nat)
  | completar (pid : Nat)
  | listarDisponibles (pid : Nat)
  | listarStatus (pid : Nat)
  deriving Repr, DecidableEq

/-- State transition of one invocation: the database after the commit on
success, the rolled-back (unchanged) database on error; the two GET
handlers never write. -/
def execOp (db : DB) : Op → DB
  | .crearPersonaje n =>
    match crear_personaje db n with
    | .ok (_, db') => db'
    | .error _ => db
  | .crearMision t x =>
    match crear_mision db t x with
    | .ok (_, db') => db'
    | .error _ => db
  | .asignar p m =>
    match asignar_mision db p m with
    | .ok (_, db') => db'
    | .error _ => db
  | .completar p =>
    match completar_mision db p with
    | .ok (_, db') => db'
    | .error _ => db
  | .listarDisponibles _ => db
  | .listarStatus _ => db

/-- Running a sequence of invocations from a given database. -/
def execOps (db : DB) (ops : List Op) : DB := ops.foldl execOp db

/-- The databases reachable from the fresh database by engine invocations. -/
inductive Reach : DB → Prop where
  | init : Reach emptyDB
  | step (db : DB) (op : Op) : Reach db → Reach (execOp db op)

/-- The queue TDA of src/tda_cola.py (`ColaMisiones`): a
`collections.deque` of mission ids, front at the head of the list. -/
structure ColaMisiones where
  items : List Nat
  deriving Repr, DecidableEq

/-- `ColaMisiones()`: starts empty. -/
def ColaMisiones.nueva : ColaMisiones := ⟨[]⟩

/-- `enqueue`: `self.items.append(mission_id)` — adds at the tail. -/
def ColaMisiones.enqueue (q : ColaMisiones) (mission_id : Nat) : ColaMisiones :=
  ⟨q.items ++ [mission_id]⟩

/-- `is_empty`: `len(self.items) == 0`. -/
def ColaMisiones.is_empty (q : ColaMisiones) : Bool :=
  q.items.length == 0

/-- `dequeue`: pops the front (`popleft`) when non-empty, returns `None`
and leaves the queue untouched when empty. -/
def ColaMisiones.dequeue (q : ColaMisiones) : Option Nat × ColaMisiones :=
  if q.is_empty then (none, q)
  else
    match q.items with
    | [] => (none, q)
    | x :: xs => (some x, ⟨xs⟩)

/-- `first`: `self.items[0]` when non-empty, `None` otherwise; never
modifies the queue. -/
def ColaMisiones.first (q : ColaMisiones) : Option Nat :=
  if q.is_empty then none
  else
    match q.items with
    | [] => none
    | x :: _ => some x

/-- `size`: `len(self.items)`. -/
def ColaMisiones.size (q : ColaMisiones) : Nat := q.items.length

/-! ### Generic helper lemmas -/

/-- Every element of a list of naturals is bounded by `foldr max 0`. -/
theorem le_foldr_max (l : List Nat) (x : Nat) (hx : x ∈ l) : x ≤ l.foldr max 0 := by
  induction l with
  | nil => cases hx
  | cons a t ih =>
    rcases List.mem_cons.mp hx with h | h
    · subst h; exact le_max_left _ _
    · exact le_trans (ih h) (le_max_right _ _)

/-- `minByOrden` returns a member of the list. -/
theorem minByOrden_mem (l : List PendRow) (r : PendRow) (h : minByOrden l = some r) :
    r ∈ l := by
  induction l with
  | nil => simp [minByOrden] at h
  | cons a t ih =>
    simp only [minByOrden] at h
    cases hm : minByOrden t with
    | none => rw [hm] at h; cases h; exact List.mem_cons_self _ _
    | some b =>
      rw [hm] at h
      by_cases hle : a.orden ≤ b.orden
      · simp [hle] at h; cases h; exact List.mem_cons_self _ _
      · simp [hle] at h; cases h; exact List.mem_cons_of_mem _ (ih hm)

/-- `minByOrden` is `none` only on the empty list. -/
theorem minByOrden_eq_none (l : List PendRow) (h : minByOrden l = none) : l = [] := by
  cases l with
  | nil => rfl
  | cons a t =>
    simp only [minByOrden] at h
    cases hm : minByOrden t with
    | none => rw [hm] at h; simp at h
    | some b => rw [hm] at h; by_cases hle : a.orden ≤ b.orden <;> simp [hle] at h

/-- `minByOrden` returns a row of minimal `orden`. -/
theorem minByOrden_le (l : List PendRow) : ∀ r : PendRow, minByOrden l = some r →
    ∀ b ∈ l, r.orden ≤ b.orden := by
  induction l with
  | nil => intro r h; simp [minByOrden] at h
  | cons a t ih =>
    intro r h c hc
    simp only [minByOrden] at h
    cases hm : minByOrden t with
    | none =>
      rw [hm] at h
      simp at h
      subst h
      have ht := minByOrden_eq_none t hm
      subst ht
      rcases List.mem_cons.mp hc with h1 | h1
      · subst h1; exact le_refl _
      · cases h1
    | some b =>
      rw [hm] at h
      by_cases hle : a.orden ≤ b.orden
      · simp [hle] at h
        subst h
        rcases List.mem_cons.mp hc with h1 | h1
        · subst h1; exact le_refl _
        · exact le_trans hle (ih b hm c h1)
      · simp [hle] at h
        subst h
        rcases List.mem_cons.mp hc with h1 | h1
        · subst h1; exact le_of_not_le hle
        · exact ih b hm c h1

/-- Replacing, in a list of characters, every row whose id matches the one
found by `find?` leaves `find?` pointing at the replacement. -/
theorem find?_update (l : List Personaje) (pid : Nat) (p p' : Personaje)
    (h : l.find? (fun q => q.id == pid) = some p) (hid : p'.id = pid) :
    (l.map (fun q => if q.id == pid then p' else q)).find? (fun q => q.id == pid)
      = some p' := by
  induction l with
  | nil => simp [List.find?] at h
  | cons a t ih =>
    cases ha : (a.id == pid) with
    | true =>
      simp only [List.map_cons]
      rw [if_pos ha]
      exact List.find?_cons_of_pos _ (by simp [hid])
    | false =>
      rw [List.find?_cons_of_neg _ (by simp [ha])] at h
      simp only [List.map_cons]
      rw [if_neg (by simp [ha])]
      rw [List.find?_cons_of_neg _ (by simp [ha])]
      exact ih h

/-- The element returned by a `find?` primary-key lookup has that key. -/
theorem find?_id_eq (l : List Personaje) (pid : Nat) (p : Personaje)
    (h : l.find? (fun q => q.id == pid) = some p) : p.id = pid := by
  have := List.find?_some h
  simpa using this

/-- In a list of characters with pairwise-distinct ids, two members with
the same id are the same row. -/
theorem mem_id_unique (l : List Personaje)
    (h : l.Pairwise (fun a b => a.id ≠ b.id)) (p q : Personaje)
    (hp : p ∈ l) (hq : q ∈ l) (hid : p.id = q.id) : p = q := by
  induction l with
  | nil => cases hp
  | cons a t ih =>
    rcases List.pairwise_cons.mp h with ⟨ha, ht⟩
    rcases List.mem_cons.mp hp with hp1 | hp1 <;>
      rcases List.mem_cons.mp hq with hq1 | hq1
    · subst hp1; subst hq1; rfl
    · subst hp1; exact absurd hid (ha q hq1)
    · subst hq1; exact absurd hid.symm (ha p hp1)
    · exact ih ht hp1 hq1

/-! ### Concrete scenarios used by counterexamples and witnesses -/

/-- Catalog `{Tutorial}`, character Ana (id 1) whose active quest is
quest 1, reached by engine calls from the fresh database. -/
def dbActive1 : DB :=
  execOps emptyDB [.crearMision "Tutorial" 10, .crearPersonaje "Ana", .asignar 1 1]

/-- Ana has completed quest 1 and — because `asignar_mision` performs no
held/completed check — has been re-assigned it as her active quest. -/
def dbCompletedActive : DB :=
  execOps emptyDB
    [.crearMision "Tutorial" 10, .crearPersonaje "Ana",
     .asignar 1 1, .completar 1, .asignar 1 1]

/-- Three quests; Ana is active on quest 1 and has quest 2 queued with
sequence number (orden) 1. -/
def dbOrdenA : DB :=
  execOps emptyDB
    [.crearMision "Uno" 10, .crearMision "Dos" 10, .crearMision "Tres" 10,
     .crearPersonaje "Ana", .asignar 1 1, .asignar 1 2]

/-- Catalog with the single quest "Tutorial". -/
def dbTut : DB := execOps emptyDB [.crearMision "Tutorial" 10]

/-- Character Ana registered, no quests ever assigned. -/
def dbIdle : DB := execOps emptyDB [.crearPersonaje "Ana"]

/-! ### C10 -/

/-- C10: on `ColaMisiones`, enqueue appends at the tail, so the list order
is arrival order; dequeue removes and returns the head — the
least-recently enqueued remaining element (strict FIFO) — and both dequeue
and first return `none` on the empty queue, without modifying it. -/
theorem c10_cola_fifo (q : ColaMisiones) (n x : Nat) (xs : List Nat) :
    (q.enqueue n).items = q.items ++ [n] ∧
    (q.items = x :: xs → q.dequeue = (some x, ⟨xs⟩) ∧ q.first = some x) ∧
    (q.items = [] → q.dequeue = (none, q) ∧ q.first = none) := by
  refine ⟨rfl, ?_, ?_⟩
  · intro h
    cases q with
    | mk items =>
      cases h
      simp [ColaMisiones.dequeue, ColaMisiones.first, ColaMisiones.is_empty]
  · intro h
    cases q with
    | mk items =>
      cases h
      simp [ColaMisiones.dequeue, ColaMisiones.first, ColaMisiones.is_empty]

/-- Witness for C10 at the concrete queue `[5]` (5 enqueued before 7). -/
theorem c10_cola_fifo_witness :
    (ColaMisiones.mk [5]).dequeue = (some 5, ⟨[]⟩) ∧
      (ColaMisiones.mk [5]).first = some 5 :=
  (c10_cola_fifo ⟨[5]⟩ 7 5 []).2.1 rfl

/-! ### C6 -/

/-- C6 (code bug): completing with no active quest does fail and does
leave the state unchanged, but the handler's own
`HTTPException(400, "El personaje no tiene misión activa")` — the 400 its
docstring promises — is caught by the blanket `except Exception` and
re-surfaced as an HTTP 500. -/
theorem c6_no_active_quest_wrapped_500 :
    completar_mision dbIdle 1 =
      .error ⟨500, "Error completando misión: 400: El personaje no tiene misión activa"⟩ ∧
    execOp dbIdle (.completar 1) = dbIdle := by
  exact ⟨rfl, rfl⟩

/-! ### C8 -/

/-- C8 (code bug): for an unknown character, `listar_misiones_disponibles`
raises its own `HTTPException(404, "Personaje no encontrado")`, but —
unlike `listar_misiones_personaje`, which re-raises `HTTPException`
unwrapped — its blanket `except Exception` converts it into an HTTP 500,
so the caller never sees the CharacterNotFound (404) outcome. -/
theorem c8_unknown_character_wrapped_500 :
    listar_misiones_disponibles emptyDB 1 =
      .error ⟨500, "Error obteniendo misiones disponibles: 404: Personaje no encontrado"⟩ := by
  exact rfl

/-! ### Counterexamples for the corrected claims -/

/-- C1 counterexample: quest 1 is already Ana's active quest, yet
`asignar_mision` succeeds (re-queueing the quest) instead of failing with
`AlreadyHeldOrCompleted`. -/
theorem c1_counterexample :
    (getPersonaje dbActive1 1).map Personaje.mision_activa_id = some (some 1) ∧
    asignar_mision dbActive1 1 1 =
      .ok (("Misión asignada correctamente", true, false),
        { dbActive1 with pendientes := [⟨1, 1, 1⟩] }) := by
  exact ⟨rfl, rfl⟩

/-- C2 counterexample: Ana's active quest is quest 1, which exists in the
catalog, yet `completar_mision` fails (duplicate INSERT into the completed
table, the quest having been completed once before) and changes nothing. -/
theorem c2_counterexample :
    (getPersonaje dbCompletedActive 1).map Personaje.mision_activa_id = some (some 1) ∧
    getMision dbCompletedActive 1 = some ⟨1, "Tutorial", 10⟩ ∧
    completar_mision dbCompletedActive 1 =
      .error ⟨500, "Error completando misión: " ++ compIntegrityMsg⟩ := by
  exact ⟨rfl, rfl, rfl⟩

/-- C3 counterexample: after the engine-call sequence that re-assigns
Ana's active quest, the active quest sits in her pending queue, violating
`active_quest ∉ pending_queue`. -/
theorem c3_counterexample :
    (getPersonaje (execOp dbActive1 (.asignar 1 1)) 1).map Personaje.mision_activa_id
        = some (some 1) ∧
    (⟨1, 1, 1⟩ : PendRow) ∈ (execOp dbActive1 (.asignar 1 1)).pendientes := by
  constructor
  · rfl
  · show (⟨1, 1, 1⟩ : PendRow) ∈ (execOp dbActive1 (.asignar 1 1)).pendientes
    decide

/-- C4 counterexample: the enqueue of quest 2 got sequence number 1; after
that entry is dequeued by `completar_mision`, the enqueue of quest 3 gets
sequence number 1 again — sequence numbers are reused after dequeue. -/
theorem c4_counterexample :
    dbOrdenA.pendientes = [⟨1, 2, 1⟩] ∧
    (execOps dbOrdenA [.completar 1, .asignar 1 3]).pendientes = [⟨1, 3, 1⟩] := by
  exact ⟨rfl, rfl⟩

/-- C5 counterexample: Ana exists and quest 1 exists in the catalog, but
re-assigning her active quest appends it to the pending queue while the
response reports `mision_activa = true, en_cola = false` — the return
value misreports whether the quest became active or was queued. -/
theorem c5_counterexample :
    getMision dbActive1 1 = some ⟨1, "Tutorial", 10⟩ ∧
    (getPersonaje dbActive1 1).map Personaje.mision_activa_id = some (some 1) ∧
    asignar_mision dbActive1 1 1 =
      .ok (("Misión asignada correctamente", true, false),
        { dbActive1 with pendientes := [⟨1, 1, 1⟩] }) ∧
    ({ dbActive1 with pendientes := [⟨1, 1, 1⟩] } : DB).pendientes = [⟨1, 1, 1⟩] := by
  exact ⟨rfl, rfl, rfl, rfl⟩

/-- C7 counterexample: the catalog already holds "Tutorial", yet
`create("Tutorial", 0)` is rejected by FastAPI's parameter validation
(422) before the duplicate check runs, not with the duplicate-title
error. -/
theorem c7_counterexample :
    crear_mision dbTut "Tutorial" 0 =
      .error ⟨422, "ensure this value is greater than 0"⟩ ∧
    (⟨422, "ensure this value is greater than 0"⟩ : HErr) ≠
      ⟨400, "Error creando misión: 400: Ya existe una misión con este título"⟩ := by
  refine ⟨rfl, ?_⟩
  decide

/-! ### Success-inversion lemmas for the handlers -/

/-- The wrapper of `crear_personaje` succeeds exactly when its try-block
body does. -/
theorem crear_personaje_ok_iff (db : DB) (n : String) (r) (db' : DB) :
    crear_personaje db n = .ok (r, db') ↔ crear_personaje_try db n = .ok (r, db') := by
  cases htry : crear_personaje_try db n with
  | ok v => simp [crear_personaje, htry]
  | error e => simp [crear_personaje, htry]

/-- The wrapper of `asignar_mision` succeeds exactly when its try-block
body does. -/
theorem asignar_mision_ok_iff (db : DB) (pid mid : Nat) (r) (db' : DB) :
    asignar_mision db pid mid = .ok (r, db') ↔
      asignar_mision_try db pid mid = .ok (r, db') := by
  cases htry : asignar_mision_try db pid mid with
  | ok v => simp [asignar_mision, htry]
  | error e => simp [asignar_mision, htry]

/-- The wrapper of `completar_mision` succeeds exactly when its try-block
body does. -/
theorem completar_mision_ok_iff (db : DB) (pid : Nat) (r) (db' : DB) :
    completar_mision db pid = .ok (r, db') ↔
      completar_mision_try db pid = .ok (r, db') := by
  cases htry : completar_mision_try db pid with
  | ok v => simp [completar_mision, htry]
  | error e => simp [completar_mision, htry]

/-- `crear_mision` succeeds exactly when both validations pass and the
try-block body succeeds. -/
theorem crear_mision_ok_iff (db : DB) (t : String) (x : Int) (r) (db' : DB) :
    crear_mision db t x = .ok (r, db') ↔
      ¬ t.length < 3 ∧ ¬ x ≤ 0 ∧ crear_mision_try db t x = .ok (r, db') := by
  by_cases h1 : t.length < 3
  · simp [crear_mision, h1]
  by_cases h2 : x ≤ 0
  · simp [crear_mision, h1, h2]
  cases htry : crear_mision_try db t x with
  | ok v => simp [crear_mision, h1, h2, htry]
  | error e => simp [crear_mision, h1, h2, htry]

/-- Inversion of a successful `crear_personaje_try`: the new character
row, with xp 0 and no active quest, is appended; nothing else changes. -/
theorem crear_personaje_try_ok_inv (db : DB) (n : String) (r) (db' : DB)
    (h : crear_personaje_try db n = .ok (r, db')) :
    db' = { db with personajes :=
      db.personajes ++ [⟨nextId (db.personajes.map Personaje.id), n, 0, none⟩] } ∧
    r = (nextId (db.personajes.map Personaje.id), n, 0) := by
  simp only [crear_personaje_try] at h
  split at h
  · simp at h
  split at h
  · simp at h
  · simp only [Except.ok.injEq, Prod.mk.injEq] at h
    exact ⟨h.2.symm, h.1.symm⟩

/-- Inversion of a successful `crear_mision_try`: the new quest row is
appended; nothing else changes. -/
theorem crear_mision_try_ok_inv (db : DB) (t : String) (x : Int) (r) (db' : DB)
    (h : crear_mision_try db t x = .ok (r, db')) :
    db.misiones.any (fun m => m.titulo == t) = false ∧
    db' = { db with misiones :=
      db.misiones ++ [⟨nextId (db.misiones.map Mision.id), t, x⟩] } := by
  simp only [crear_mision_try] at h
  split at h
  · simp at h
  · simp only [Except.ok.injEq, Prod.mk.injEq] at h
    rename_i hdup
    refine ⟨?_, h.2.symm⟩
    simpa using hdup

/-- Inversion of a successful `asignar_mision_try`: either the character
was idle (truthiness-falsy active id) and only its `mision_activa_id`
changed, or the quest was appended to the pending table with sequence
number `maxOrden + 1`. -/
theorem asignar_mision_try_ok_inv (db : DB) (pid mid : Nat) (r) (db' : DB)
    (h : asignar_mision_try db pid mid = .ok (r, db')) :
    ∃ p, getPersonaje db pid = some p ∧
    ((falsyOpt p.mision_activa_id = true ∧
        db' = { db with personajes := db.personajes.map (fun q => if q.id == pid then { p with mision_activa_id := some mid } else q) }) ∨
     (falsyOpt p.mision_activa_id = false ∧ pendHas db pid mid = false ∧
        db' = { db with pendientes := db.pendientes ++ [⟨pid, mid, maxOrden db pid + 1⟩] })) := by
  simp only [asignar_mision_try] at h
  cases hp : getPersonaje db pid with
  | none => rw [hp] at h; simp at h
  | some p =>
    rw [hp] at h
    simp only [] at h
    refine ⟨p, rfl, ?_⟩
    cases hm : getMision db mid with
    | none => rw [hm] at h; simp at h
    | some m =>
      rw [hm] at h
      simp only [] at h
      cases hf : falsyOpt p.mision_activa_id with
      | true =>
        rw [if_pos hf] at h
        simp only [Except.ok.injEq, Prod.mk.injEq] at h
        exact Or.inl ⟨rfl, h.2.symm⟩
      | false =>
        rw [if_neg (show ¬ falsyOpt p.mision_activa_id = true by simp [hf])] at h
        cases hpd : pendHas db pid mid with
        | true => rw [if_pos hpd] at h; simp at h
        | false =>
          rw [if_neg (show ¬ pendHas db pid mid = true by simp [hpd])] at h
          simp only [Except.ok.injEq, Prod.mk.injEq] at h
          exact Or.inr ⟨rfl, rfl, h.2.symm⟩

/-- The database produced by a successful `completar_mision_try` on
character `p` (looked up under `pid`) with active quest `m`: xp credited
and active id moved to the queue head in the character row, completed row
appended, promoted row (when any) deleted from the pending table. -/
def completadoDB (db : DB) (pid : Nat) (p : Personaje) (m : Mision) : DB :=
  { db with
    personajes := db.personajes.map (fun q => if q.id == pid then { p with xp := p.xp + m.xp, mision_activa_id := (minByOrden (pendRowsOf db pid)).map PendRow.mision_id } else q),
    completadas := db.completadas ++ [⟨pid, p.mision_activa_id.getD 0⟩],
    pendientes := match minByOrden (pendRowsOf db pid) with
      | some row => db.pendientes.filter (fun rr => !(rr.personaje_id == pid && rr.mision_id == row.mision_id))
      | none => db.pendientes }

/-- Inversion of a successful `completar_mision_try`: the character had a
truthy active quest id resolving to quest `m` not yet completed; the xp is
credited, the completed row appended, and the queue head (when present)
promoted and removed. -/
theorem completar_mision_try_ok_inv (db : DB) (pid : Nat) (r) (db' : DB)
    (h : completar_mision_try db pid = .ok (r, db')) :
    ∃ p m, getPersonaje db pid = some p ∧
      falsyOpt p.mision_activa_id = false ∧
      getMision db (p.mision_activa_id.getD 0) = some m ∧
      compHas db pid (p.mision_activa_id.getD 0) = false ∧
      r = ("Misión completada exitosamente", m.xp, p.xp + m.xp) ∧
      db' = completadoDB db pid p m := by
  simp only [completar_mision_try] at h
  cases hp : getPersonaje db pid with
  | none => rw [hp] at h; simp at h
  | some p =>
    rw [hp] at h
    simp only [] at h
    cases hf : falsyOpt p.mision_activa_id with
    | true => rw [if_pos hf] at h; simp at h
    | false =>
      rw [if_neg (show ¬ falsyOpt p.mision_activa_id = true by simp [hf])] at h
      cases hm : getMision db (p.mision_activa_id.getD 0) with
      | none => rw [hm] at h; simp at h
      | some m =>
        rw [hm] at h
        simp only [] at h
        cases hc : compHas db pid (p.mision_activa_id.getD 0) with
        | true => rw [if_pos hc] at h; simp at h
        | false =>
          rw [if_neg (show ¬ compHas db pid (p.mision_activa_id.getD 0) = true by simp [hc])] at h
          simp only [Except.ok.injEq, Prod.mk.injEq] at h
          exact ⟨p, m, rfl, hf, hm, hc, h.1.symm, h.2.symm⟩

/-! ### The queue branch of `asignar_mision` -/

/-- When the character has a truthy active quest, `asignar_mision` either
hits the pending table's primary key (wrapped 400) or appends the quest
with sequence number `maxOrden + 1`, reporting
`mision_activa = (aid == mid)`, `en_cola = (aid != mid)`. -/
theorem asignar_queue_branch (db : DB) (pid mid aid : Nat) (p : Personaje) (m : Mision)
    (hp : getPersonaje db pid = some p) (hm : getMision db mid = some m)
    (hact : p.mision_activa_id = some aid) (h0 : aid ≠ 0) :
    (pendHas db pid mid = true →
       asignar_mision db pid mid =
         .error ⟨400, "Error asignando misión: " ++ pendIntegrityMsg⟩) ∧
    (pendHas db pid mid = false →
       asignar_mision db pid mid =
         .ok (("Misión asignada correctamente", aid == mid, !(aid == mid)),
           { db with pendientes := db.pendientes ++ [⟨pid, mid, maxOrden db pid + 1⟩] })) := by
  have hf : falsyOpt (some aid) = false := by simp [falsyOpt, h0]
  constructor <;> intro hpd
  · simp [asignar_mision, asignar_mision_try, hp, hm, hact, hf, hpd, Exc.toMsg]
  · simp [asignar_mision, asignar_mision_try, hp, hm, hact, hf, hpd]

/-! ### C1 -/

/-- C1 (amended): when the character has an active quest, re-assigning a
quest that is already in its pending queue fails — via the queue's
composite primary key, surfaced as a wrapped HTTP 400 — and leaves the
progression record unchanged.  (No check rejects a quest that is merely
the active quest or completed; see the counterexample.) -/
theorem c1_amended_pending_reassign_fails (db : DB) (pid mid aid : Nat)
    (p : Personaje) (m : Mision)
    (hp : getPersonaje db pid = some p) (hm : getMision db mid = some m)
    (hact : p.mision_activa_id = some aid) (h0 : aid ≠ 0)
    (hpend : pendHas db pid mid = true) :
    asignar_mision db pid mid =
      .error ⟨400, "Error asignando misión: " ++ pendIntegrityMsg⟩ ∧
    execOp db (.asignar pid mid) = db := by
  have h1 := (asignar_queue_branch db pid mid aid p m hp hm hact h0).1 hpend
  exact ⟨h1, by simp [execOp, h1]⟩

/-- Witness for C1's amended theorem: quest 2 is already in Ana's pending
queue, so re-assigning it fails and changes nothing. -/
theorem c1_amended_witness :
    asignar_mision dbOrdenA 1 2 =
      .error ⟨400, "Error asignando misión: " ++ pendIntegrityMsg⟩ ∧
    execOp dbOrdenA (.asignar 1 2) = dbOrdenA :=
  c1_amended_pending_reassign_fails dbOrdenA 1 2 1 ⟨1, "Ana", 0, some 1⟩
    ⟨2, "Dos", 10⟩ rfl rfl rfl (by decide) rfl

/-! ### C4 -/

/-- C4 (amended): a newly enqueued quest receives sequence number
`maxOrden + 1` — one more than the maximum over the character's rows
currently in the pending table — which is strictly greater than every
sequence number currently in that character's queue.  (Numbers are not
globally fresh over the character's lifetime: once rows are dequeued the
maximum drops and numbers are reused; see the counterexample.) -/
theorem c4_amended_orden_max_plus_one (db : DB) (pid mid aid : Nat)
    (p : Personaje) (m : Mision)
    (hp : getPersonaje db pid = some p) (hm : getMision db mid = some m)
    (hact : p.mision_activa_id = some aid) (h0 : aid ≠ 0)
    (hpend : pendHas db pid mid = false) :
    asignar_mision db pid mid =
      .ok (("Misión asignada correctamente", aid == mid, !(aid == mid)),
        { db with pendientes := db.pendientes ++ [⟨pid, mid, maxOrden db pid + 1⟩] }) ∧
    ∀ r ∈ pendRowsOf db pid, r.orden < maxOrden db pid + 1 := by
  refine ⟨(asignar_queue_branch db pid mid aid p m hp hm hact h0).2 hpend, ?_⟩
  intro r hr
  exact Nat.lt_succ_of_le (le_foldr_max _ _ (List.mem_map_of_mem _ hr))

/-- Witness for C4's amended theorem: enqueueing quest 3 for Ana, whose
queue holds one row with orden 1, appends it with orden 2. -/
theorem c4_amended_witness :
    asignar_mision dbOrdenA 1 3 =
      .ok (("Misión asignada correctamente", (1 == 3), !(1 == 3)),
        { dbOrdenA with pendientes := dbOrdenA.pendientes ++ [⟨1, 3, maxOrden dbOrdenA 1 + 1⟩] }) ∧
    ∀ r ∈ pendRowsOf dbOrdenA 1, r.orden < maxOrden dbOrdenA 1 + 1 :=
  c4_amended_orden_max_plus_one dbOrdenA 1 3 1 ⟨1, "Ana", 0, some 1⟩
    ⟨3, "Tres", 10⟩ rfl rfl rfl (by decide) rfl

/-! ### C5 -/

/-- C5 (amended): for an existing character and a catalog quest,
`asignar_mision` sets the quest active (reporting activated) when the
character's active quest is absent; when an active quest is present and
the requested quest is neither that active quest nor already pending, it
appends the quest to the tail of the queue and reports queued.  (When the
requested quest *is* the active quest the report is wrong; see the
counterexample.) -/
theorem c5_amended_assign_respects (db : DB) (pid mid : Nat) (p : Personaje) (m : Mision)
    (hp : getPersonaje db pid = some p) (hm : getMision db mid = some m) :
    (p.mision_activa_id = none →
       ∃ db', asignar_mision db pid mid =
           .ok (("Misión asignada correctamente", true, false), db') ∧
         getPersonaje db' pid = some { p with mision_activa_id := some mid } ∧
         db'.pendientes = db.pendientes ∧ db'.misiones = db.misiones ∧
         db'.completadas = db.completadas) ∧
    (∀ aid, p.mision_activa_id = some aid → aid ≠ 0 → (aid == mid) = false →
       pendHas db pid mid = false →
       asignar_mision db pid mid =
         .ok (("Misión asignada correctamente", false, true),
           { db with pendientes := db.pendientes ++ [⟨pid, mid, maxOrden db pid + 1⟩] })) := by
  constructor
  · intro hnone
    have hf : falsyOpt p.mision_activa_id = true := by simp [hnone, falsyOpt]
    refine ⟨{ db with personajes := db.personajes.map (fun q => if q.id == pid then { p with mision_activa_id := some mid } else q) }, ?_, ?_, rfl, rfl, rfl⟩
    · simp [asignar_mision, asignar_mision_try, hp, hm, hf]
    · exact find?_update _ _ _ _ hp (find?_id_eq db.personajes pid p hp)
  · intro aid hact h0 hne hpd
    have h2 := (asignar_queue_branch db pid mid aid p m hp hm hact h0).2 hpd
    rw [h2, hne]
    rfl

/-- Catalog `{Tutorial}` with the idle character Ana. -/
def dbIdleTut : DB :=
  execOps emptyDB [.crearMision "Tutorial" 10, .crearPersonaje "Ana"]

/-- Witness for C5's amended theorem: assigning quest 1 to the idle Ana
activates it and reports `mision_activa = true`. -/
theorem c5_amended_witness :
    ∃ db', asignar_mision dbIdleTut 1 1 =
        .ok (("Misión asignada correctamente", true, false), db') ∧
      getPersonaje db' 1 = some ⟨1, "Ana", 0, some 1⟩ ∧
      db'.pendientes = dbIdleTut.pendientes ∧ db'.misiones = dbIdleTut.misiones ∧
      db'.completadas = dbIdleTut.completadas :=
  (c5_amended_assign_respects dbIdleTut 1 1 ⟨1, "Ana", 0, none⟩
    ⟨1, "Tutorial", 10⟩ rfl rfl).1 rfl

/-! ### C2 -/

/-- C2 (amended): for a character whose active quest id is a nonzero id
resolving to catalog quest `m` that is *not already in its completed set*,
`completar_mision` returns `{xp_gained = m.xp, xp_total = old + m.xp}`,
records the quest as completed, credits exactly `m.xp`, and promotes the
pending row with the lowest sequence number (removing it from the queue)
when the queue is non-empty, setting the active quest to absent otherwise.
(Without the not-already-completed proviso the claim fails; see the
counterexample.) -/
theorem c2_amended_complete_ok (db : DB) (pid qid : Nat) (p : Personaje) (m : Mision)
    (hp : getPersonaje db pid = some p)
    (hact : p.mision_activa_id = some qid) (h0 : qid ≠ 0)
    (hm : getMision db qid = some m)
    (hnc : compHas db pid qid = false) :
    ∃ db', completar_mision db pid =
        .ok (("Misión completada exitosamente", m.xp, p.xp + m.xp), db') ∧
      (⟨pid, qid⟩ : CompRow) ∈ db'.completadas ∧
      ∃ p', getPersonaje db' pid = some p' ∧ p'.xp = p.xp + m.xp ∧
        ((pendRowsOf db pid = [] ∧ p'.mision_activa_id = none ∧
            db'.pendientes = db.pendientes) ∨
         (∃ row, row ∈ pendRowsOf db pid ∧
            (∀ b ∈ pendRowsOf db pid, row.orden ≤ b.orden) ∧
            p'.mision_activa_id = some row.mision_id ∧
            db'.pendientes = db.pendientes.filter (fun rr => !(rr.personaje_id == pid && rr.mision_id == row.mision_id)))) := by
  have hf : falsyOpt (some qid) = false := by simp [falsyOpt, h0]
  have hok : completar_mision db pid =
      .ok (("Misión completada exitosamente", m.xp, p.xp + m.xp), completadoDB db pid p m) := by
    simp [completar_mision, completar_mision_try, hp, hact, hf, hm, hnc, completadoDB]
  refine ⟨completadoDB db pid p m, hok, ?_, ?_⟩
  · simp [completadoDB, hact]
  · refine ⟨{ p with xp := p.xp + m.xp, mision_activa_id := (minByOrden (pendRowsOf db pid)).map PendRow.mision_id }, ?_, rfl, ?_⟩
    · exact find?_update _ _ _ _ hp (find?_id_eq db.personajes pid p hp)
    · cases hsig : minByOrden (pendRowsOf db pid) with
      | none =>
        left
        exact ⟨minByOrden_eq_none _ hsig, by simp [hsig], by simp [completadoDB, hsig]⟩
      | some row =>
        right
        exact ⟨row, minByOrden_mem _ _ hsig, minByOrden_le _ _ hsig,
          by simp [hsig], by simp [completadoDB, hsig]⟩

/-- Witness for C2's amended theorem: completing Ana's active quest 1 in
`dbOrdenA` credits 10 xp, records quest 1 completed, and promotes quest 2
(its pending row having the minimal orden). -/
theorem c2_amended_witness :
    ∃ db', completar_mision dbOrdenA 1 =
        .ok (("Misión completada exitosamente", 10, 10), db') ∧
      (⟨1, 1⟩ : CompRow) ∈ db'.completadas ∧
      ∃ p', getPersonaje db' 1 = some p' ∧ p'.xp = 10 ∧
        ((pendRowsOf dbOrdenA 1 = [] ∧ p'.mision_activa_id = none ∧
            db'.pendientes = dbOrdenA.pendientes) ∨
         (∃ row, row ∈ pendRowsOf dbOrdenA 1 ∧
            (∀ b ∈ pendRowsOf dbOrdenA 1, row.orden ≤ b.orden) ∧
            p'.mision_activa_id = some row.mision_id ∧
            db'.pendientes = dbOrdenA.pendientes.filter (fun rr => !(rr.personaje_id == 1 && rr.mision_id == row.mision_id)))) :=
  c2_amended_complete_ok dbOrdenA 1 1 ⟨1, "Ana", 0, some 1⟩ ⟨1, "Uno", 10⟩
    rfl rfl (by decide) rfl rfl

/-! ### C7 -/

/-- C7 (amended): creating a quest with an already-used (hence valid,
length ≥ 3) title and a strictly positive reward fails with the
duplicate-title error — regardless of which positive reward — and adds
nothing; a request with an invalid reward is instead rejected by parameter
validation before the duplicate check (see the counterexample).  In all
cases `crear_mision` succeeds only when the title has length ≥ 3, the
reward is strictly positive and the title is unused. -/
theorem c7_amended_duplicate_title (db : DB) :
    (∀ titulo xp, db.misiones.any (fun m => m.titulo == titulo) = true →
       ¬ titulo.length < 3 → 0 < xp →
       crear_mision db titulo xp =
         .error ⟨400, "Error creando misión: 400: Ya existe una misión con este título"⟩ ∧
       execOp db (.crearMision titulo xp) = db) ∧
    (∀ t x r db', crear_mision db t x = .ok (r, db') →
       3 ≤ t.length ∧ 0 < x ∧ db.misiones.any (fun m => m.titulo == t) = false) := by
  constructor
  · intro titulo xp hdup hlen hxpos
    have hxp' : ¬ xp ≤ 0 := not_le.mpr hxpos
    have herr : crear_mision db titulo xp =
        .error ⟨400, "Error creando misión: 400: Ya existe una misión con este título"⟩ := by
      rw [crear_mision, if_neg hlen, if_neg hxp']
      simp only [crear_mision_try, hdup, if_true]
      rfl
    exact ⟨herr, by simp [execOp, herr]⟩
  · intro t x r db' hok
    rcases (crear_mision_ok_iff db t x r db').mp hok with ⟨h1, h2, h3⟩
    exact ⟨le_of_not_lt h1, lt_of_not_le h2, (crear_mision_try_ok_inv db t x r db' h3).1⟩

/-- Witness for C7's amended theorem: re-creating "Tutorial" with the
(valid) reward 5 fails with the duplicate-title error and adds nothing. -/
theorem c7_amended_witness :
    crear_mision dbTut "Tutorial" 5 =
      .error ⟨400, "Error creando misión: 400: Ya existe una misión con este título"⟩ ∧
    execOp dbTut (.crearMision "Tutorial" 5) = dbTut :=
  (c7_amended_duplicate_title dbTut).1 "Tutorial" 5 rfl (by decide) (by decide)

/-! ### C3 -/

/-- Key-uniqueness of the pending association table: no two rows share the
composite primary key (personaje_id, mision_id). -/
def PendKeyNodup (db : DB) : Prop :=
  db.pendientes.Pairwise
    (fun a b => ¬(a.personaje_id = b.personaje_id ∧ a.mision_id = b.mision_id))

/-- Any single engine invocation leaves the pending table unchanged,
appends one row whose key was absent, or filters it. -/
theorem execOp_pendientes_cases (db : DB) (op : Op) :
    (execOp db op).pendientes = db.pendientes ∨
    (∃ pid mid, pendHas db pid mid = false ∧
       (execOp db op).pendientes = db.pendientes ++ [⟨pid, mid, maxOrden db pid + 1⟩]) ∨
    (∃ f : PendRow → Bool, (execOp db op).pendientes = db.pendientes.filter f) := by
  cases op with
  | crearPersonaje n =>
    cases h : crear_personaje db n with
    | ok v =>
      obtain ⟨r, db'⟩ := v
      have hinv := crear_personaje_try_ok_inv db n r db'
        ((crear_personaje_ok_iff db n r db').mp h)
      left
      simp [execOp, h, hinv.1]
    | error e => left; simp [execOp, h]
  | crearMision t x =>
    cases h : crear_mision db t x with
    | ok v =>
      obtain ⟨r, db'⟩ := v
      rcases (crear_mision_ok_iff db t x r db').mp h with ⟨-, -, h3⟩
      have hinv := crear_mision_try_ok_inv db t x r db' h3
      left
      simp [execOp, h, hinv.2]
    | error e => left; simp [execOp, h]
  | asignar pid mid =>
    cases h : asignar_mision db pid mid with
    | ok v =>
      obtain ⟨r, db'⟩ := v
      obtain ⟨p, hp, hcase⟩ := asignar_mision_try_ok_inv db pid mid r db'
        ((asignar_mision_ok_iff db pid mid r db').mp h)
      rcases hcase with ⟨hf, hdb⟩ | ⟨hf, hpd, hdb⟩
      · left; simp [execOp, h, hdb]
      · right; left
        exact ⟨pid, mid, hpd, by simp [execOp, h, hdb]⟩
    | error e => left; simp [execOp, h]
  | completar pid =>
    cases h : completar_mision db pid with
    | ok v =>
      obtain ⟨r, db'⟩ := v
      obtain ⟨p, m, hp, hf, hm, hc, hr, hdb⟩ := completar_mision_try_ok_inv db pid r db'
        ((completar_mision_ok_iff db pid r db').mp h)
      cases hsig : minByOrden (pendRowsOf db pid) with
      | none => left; simp [execOp, h, hdb, completadoDB, hsig]
      | some row =>
        right; right
        exact ⟨(fun rr => !(rr.personaje_id == pid && rr.mision_id == row.mision_id)),
          by simp [execOp, h, hdb, completadoDB, hsig]⟩
    | error e => left; simp [execOp, h]
  | listarDisponibles pid => left; rfl
  | listarStatus pid => left; rfl

/-- The pending table's key-uniqueness holds in every reachable database. -/
theorem reach_pend_nodup (db : DB) (h : Reach db) : PendKeyNodup db := by
  induction h with
  | init => simp [PendKeyNodup, emptyDB]
  | step db op hdb ih =>
    unfold PendKeyNodup at ih ⊢
    rcases execOp_pendientes_cases db op with hc | ⟨pid, mid, hfresh, hc⟩ | ⟨f, hc⟩
    · rw [hc]; exact ih
    · rw [hc]
      apply List.pairwise_append.mpr
      refine ⟨ih, by simp, ?_⟩
      intro a ha b hb
      simp only [List.mem_singleton] at hb
      subst hb
      rintro ⟨h1, h2⟩
      have hany : db.pendientes.any
          (fun r => r.personaje_id == pid && r.mision_id == mid) = true :=
        List.any_eq_true.mpr ⟨a, ha, by simp [h1, h2]⟩
      rw [pendHas, hany] at hfresh
      cases hfresh
    · rw [hc]
      exact List.Pairwise.sublist (List.filter_sublist _) ih

/-- C3 (amended): after every sequence of engine invocations the pending
table never holds two rows with the same (character, quest) key, so each
character's pending queue has no repeated entries.  (The other three
invariants of the claim — active ∉ pending, active ∉ completed,
pending ∩ completed = ∅ — do not hold; see the counterexample.) -/
theorem c3_amended_pending_nodup (db : DB) (h : Reach db) :
    db.pendientes.Pairwise
      (fun a b => ¬(a.personaje_id = b.personaje_id ∧ a.mision_id = b.mision_id)) ∧
    ∀ pid, ((pendRowsOf db pid).map PendRow.mision_id).Nodup := by
  have hnd := reach_pend_nodup db h
  refine ⟨hnd, ?_⟩
  intro pid
  have h2 : (pendRowsOf db pid).Pairwise
      (fun a b => ¬(a.personaje_id = b.personaje_id ∧ a.mision_id = b.mision_id)) :=
    List.Pairwise.sublist (List.filter_sublist _) hnd
  have h3 : (pendRowsOf db pid).Pairwise (fun a b => a.mision_id ≠ b.mision_id) := by
    refine List.Pairwise.imp_of_mem ?_ h2
    intro a b ha hb hr hmid
    have ha' : a.personaje_id = pid := by
      have := List.of_mem_filter ha
      simpa using this
    have hb' : b.personaje_id = pid := by
      have := List.of_mem_filter hb
      simpa using this
    exact hr ⟨ha'.trans hb'.symm, hmid⟩
  exact List.Pairwise.map _ (fun a b hab => hab) h3

/-- Running a list of invocations from a reachable database stays
reachable. -/
theorem reach_execOps (db : DB) (h : Reach db) (ops : List Op) :
    Reach (execOps db ops) := by
  induction ops generalizing db with
  | nil => exact h
  | cons o rest ih => exact ih (execOp db o) (Reach.step db o h)

/-- `dbOrdenA` is reachable. -/
theorem reach_dbOrdenA : Reach dbOrdenA :=
  reach_execOps emptyDB Reach.init
    [.crearMision "Uno" 10, .crearMision "Dos" 10, .crearMision "Tres" 10,
     .crearPersonaje "Ana", .asignar 1 1, .asignar 1 2]

/-- Witness for C3's amended theorem at the reachable `dbOrdenA`. -/
theorem c3_amended_witness :
    dbOrdenA.pendientes.Pairwise
      (fun a b => ¬(a.personaje_id = b.personaje_id ∧ a.mision_id = b.mision_id)) ∧
    ∀ pid, ((pendRowsOf dbOrdenA pid).map PendRow.mision_id).Nodup :=
  c3_amended_pending_nodup dbOrdenA reach_dbOrdenA

/-! ### C9 -/

/-- Induction invariant for the xp claim: character ids are pairwise
distinct (autoincrement), every character's xp is non-negative, and every
catalog quest's reward is strictly positive (FastAPI's `gt=0`). -/
def XpInv (db : DB) : Prop :=
  db.personajes.Pairwise (fun a b => a.id ≠ b.id) ∧
  (∀ p ∈ db.personajes, 0 ≤ p.xp) ∧
  (∀ m ∈ db.misiones, 0 < m.xp)

/-- Facts about the in-place row update performed by `asignar_mision` and
`completar_mision` (SQLAlchemy mutates the looked-up character row):
id-distinctness survives, non-negativity survives, and every original
row has an image with the same id and at-least-as-large xp. -/
theorem personajes_update_facts (l : List Personaje) (pid : Nat) (p0 p' : Personaje)
    (hfind : l.find? (fun q => q.id == pid) = some p0)
    (hid : p'.id = p0.id) (hxp : p0.xp ≤ p'.xp)
    (hnd : l.Pairwise (fun a b => a.id ≠ b.id)) (h0 : ∀ q ∈ l, 0 ≤ q.xp)
    (h0' : 0 ≤ p'.xp) :
    ((l.map (fun q => if q.id == pid then p' else q)).Pairwise (fun a b => a.id ≠ b.id)) ∧
    (∀ q ∈ l.map (fun q => if q.id == pid then p' else q), 0 ≤ q.xp) ∧
    (∀ q ∈ l, ∃ q', q' ∈ l.map (fun q => if q.id == pid then p' else q) ∧
       q'.id = q.id ∧ q.xp ≤ q'.xp) := by
  have hp0 : p0.id = pid := find?_id_eq l pid p0 hfind
  have hkey : ∀ q : Personaje, ((if q.id == pid then p' else q)).id = q.id := by
    intro q
    by_cases hq : (q.id == pid) = true
    · rw [if_pos hq, hid, hp0]
      exact Eq.symm (by simpa using hq)
    · rw [if_neg hq]
  refine ⟨?_, ?_, ?_⟩
  · refine List.Pairwise.map _ ?_ hnd
    intro a b hab
    rw [hkey a, hkey b]
    exact hab
  · intro q hq
    rcases List.mem_map.mp hq with ⟨q0, hq0, rfl⟩
    by_cases hc : (q0.id == pid) = true
    · rw [if_pos hc]; exact h0'
    · rw [if_neg hc]; exact h0 q0 hq0
  · intro q hq
    refine ⟨(if q.id == pid then p' else q), List.mem_map_of_mem _ hq, hkey q, ?_⟩
    by_cases hc : (q.id == pid) = true
    · have hqp0 : q = p0 :=
        mem_id_unique l hnd q p0 hq (List.mem_of_find?_eq_some hfind)
          (by rw [hp0]; simpa using hc)
      rw [if_pos hc, hqp0]
      exact hxp
    · rw [if_neg hc]

/-- One engine invocation preserves `XpInv` and never decreases any
existing character's xp. -/
theorem execOp_xp_step (db : DB) (op : Op) (h : XpInv db) :
    XpInv (execOp db op) ∧
    ∀ p ∈ db.personajes, ∃ p', p' ∈ (execOp db op).personajes ∧
      p'.id = p.id ∧ p.xp ≤ p'.xp := by
  obtain ⟨hnd, h0, hmis⟩ := h
  cases op with
  | crearPersonaje n =>
    cases hc : crear_personaje db n with
    | error e =>
      have hexec : execOp db (.crearPersonaje n) = db := by simp [execOp, hc]
      rw [hexec]
      exact ⟨⟨hnd, h0, hmis⟩, fun p hp => ⟨p, hp, rfl, le_refl _⟩⟩
    | ok v =>
      obtain ⟨r, db'⟩ := v
      have hinv := crear_personaje_try_ok_inv db n r db'
        ((crear_personaje_ok_iff db n r db').mp hc)
      have hexec : execOp db (.crearPersonaje n) = db' := by simp [execOp, hc]
      rw [hexec, hinv.1]
      refine ⟨⟨?_, ?_, hmis⟩, ?_⟩
      · apply List.pairwise_append.mpr
        refine ⟨hnd, by simp, ?_⟩
        intro a ha b hb
        simp only [List.mem_singleton] at hb
        subst hb
        have hle : a.id ≤ (db.personajes.map Personaje.id).foldr max 0 :=
          le_foldr_max _ _ (List.mem_map_of_mem _ ha)
        simp only [nextId]
        omega
      · intro q hq
        rcases List.mem_append.mp hq with hq | hq
        · exact h0 q hq
        · simp only [List.mem_singleton] at hq
          subst hq
          exact le_refl _
      · intro p hp
        exact ⟨p, List.mem_append_left _ hp, rfl, le_refl _⟩
  | crearMision t x =>
    cases hc : crear_mision db t x with
    | error e =>
      have hexec : execOp db (.crearMision t x) = db := by simp [execOp, hc]
      rw [hexec]
      exact ⟨⟨hnd, h0, hmis⟩, fun p hp => ⟨p, hp, rfl, le_refl _⟩⟩
    | ok v =>
      obtain ⟨r, db'⟩ := v
      rcases (crear_mision_ok_iff db t x r db').mp hc with ⟨h1, h2, h3⟩
      have hinv := crear_mision_try_ok_inv db t x r db' h3
      have hexec : execOp db (.crearMision t x) = db' := by simp [execOp, hc]
      rw [hexec, hinv.2]
      refine ⟨⟨hnd, h0, ?_⟩, ?_⟩
      · intro q hq
        rcases List.mem_append.mp hq with hq | hq
        · exact hmis q hq
        · simp only [List.mem_singleton] at hq
          subst hq
          exact lt_of_not_le h2
      · intro p hp
        exact ⟨p, hp, rfl, le_refl _⟩
  | asignar pid mid =>
    cases hc : asignar_mision db pid mid with
    | error e =>
      have hexec : execOp db (.asignar pid mid) = db := by simp [execOp, hc]
      rw [hexec]
      exact ⟨⟨hnd, h0, hmis⟩, fun p hp => ⟨p, hp, rfl, le_refl _⟩⟩
    | ok v =>
      obtain ⟨r, db'⟩ := v
      obtain ⟨p, hp, hcase⟩ := asignar_mision_try_ok_inv db pid mid r db'
        ((asignar_mision_ok_iff db pid mid r db').mp hc)
      have hexec : execOp db (.asignar pid mid) = db' := by simp [execOp, hc]
      rcases hcase with ⟨hf, hdb⟩ | ⟨hf, hpd, hdb⟩
      · have hfacts := personajes_update_facts db.personajes pid p
          { p with mision_activa_id := some mid } hp rfl (le_refl _) hnd h0
          (h0 p (List.mem_of_find?_eq_some hp))
        rw [hexec, hdb]
        exact ⟨⟨hfacts.1, hfacts.2.1, hmis⟩, hfacts.2.2⟩
      · rw [hexec, hdb]
        exact ⟨⟨hnd, h0, hmis⟩, fun q hq => ⟨q, hq, rfl, le_refl _⟩⟩
  | completar pid =>
    cases hc : completar_mision db pid with
    | error e =>
      have hexec : execOp db (.completar pid) = db := by simp [execOp, hc]
      rw [hexec]
      exact ⟨⟨hnd, h0, hmis⟩, fun p hp => ⟨p, hp, rfl, le_refl _⟩⟩
    | ok v =>
      obtain ⟨r, db'⟩ := v
      obtain ⟨p, m, hp, hf, hm, hcomp, hr, hdb⟩ := completar_mision_try_ok_inv db pid r db'
        ((completar_mision_ok_iff db pid r db').mp hc)
      have hexec : execOp db (.completar pid) = db' := by simp [execOp, hc]
      have hmx : (0 : Int) < m.xp := hmis m (List.mem_of_find?_eq_some hm)
      have hfacts := personajes_update_facts db.personajes pid p
        { p with xp := p.xp + m.xp, mision_activa_id := (minByOrden (pendRowsOf db pid)).map PendRow.mision_id }
        hp rfl (le_add_of_nonneg_right (le_of_lt hmx)) hnd h0
        (add_nonneg (h0 p (List.mem_of_find?_eq_some hp)) (le_of_lt hmx))
      rw [hexec, hdb]
      exact ⟨⟨hfacts.1, hfacts.2.1, hmis⟩, hfacts.2.2⟩
  | listarDisponibles pid =>
    exact ⟨⟨hnd, h0, hmis⟩, fun p hp => ⟨p, hp, rfl, le_refl _⟩⟩
  | listarStatus pid =>
    exact ⟨⟨hnd, h0, hmis⟩, fun p hp => ⟨p, hp, rfl, le_refl _⟩⟩

/-- `XpInv` holds in every reachable database. -/
theorem reach_xpInv (db : DB) (h : Reach db) : XpInv db := by
  induction h with
  | init =>
    exact ⟨by simp [emptyDB], by simp [emptyDB], by simp [emptyDB]⟩
  | step db op hdb ih => exact (execOp_xp_step db op ih).1

/-- C9: a character is created with xp 0; in every reachable database
every character's xp_total is a non-negative integer; and no engine
invocation ever decreases an existing character's xp (monotone
non-decreasing). -/
theorem c9_xp_nonneg_monotone :
    (∀ db nombre r db', crear_personaje db nombre = .ok (r, db') →
       ∃ p, db'.personajes = db.personajes ++ [p] ∧ p.xp = 0) ∧
    (∀ db, Reach db → ∀ p ∈ db.personajes, 0 ≤ p.xp) ∧
    (∀ db, Reach db → ∀ op, ∀ p ∈ db.personajes,
       ∃ p', p' ∈ (execOp db op).personajes ∧ p'.id = p.id ∧ p.xp ≤ p'.xp) := by
  refine ⟨?_, ?_, ?_⟩
  · intro db n r db' hok
    have hinv := crear_personaje_try_ok_inv db n r db'
      ((crear_personaje_ok_iff db n r db').mp hok)
    exact ⟨_, by rw [hinv.1], rfl⟩
  · intro db h p hp
    exact (reach_xpInv db h).2.1 p hp
  · intro db h op p hp
    exact (execOp_xp_step db op (reach_xpInv db h)).2 p hp

/-- Witness for C9 at the reachable `dbOrdenA`, stepping it with a
`completar` invocation. -/
theorem c9_witness :
    (∀ p ∈ dbOrdenA.personajes, 0 ≤ p.xp) ∧
    (∀ p ∈ dbOrdenA.personajes, ∃ p', p' ∈ (execOp dbOrdenA (.completar 1)).personajes ∧
       p'.id = p.id ∧ p.xp ≤ p'.xp) :=
  ⟨c9_xp_nonneg_monotone.2.1 dbOrdenA reach_dbOrdenA,
   c9_xp_nonneg_monotone.2.2 dbOrdenA reach_dbOrdenA (.completar 1)⟩
